import Mathlib

/-!
Verification of the WordCloud ("word portrait") generator core.

The development shallowly embeds the JavaScript sources:
* `src/utils/colorUtils.js`  — brightness, hex parsing, clamping;
* `src/services/ImageProcessor.js` — edge detection, threshold, mask and
  color queries on a flat RGBA pixel buffer;
* `src/services/WordPlacer.js` — collision grid, tiered stochastic word
  placement;
* `src/components/PresetPanel.js` — word list parsing with fallback.

Conventions of the embedding:
* JS numbers are modelled as exact rationals (`ℚ`); buffer bytes as `ℕ`.
* A `Uint8ClampedArray` read out of range yields `undefined` in JS; reads
  are therefore modelled as `Option ℕ`, with `none` for `undefined`, and a
  numeric expression contaminated by `undefined` (JS `NaN`) as `none`.
  JS comparisons involving `NaN` are false, which the `opt*` helpers mirror.
* A `Uint8ClampedArray` write clamps to `[0,255]` and rounds half to even
  (`ToUint8Clamp`), modelled by `clampU8`.
* `Math.random()` is modelled as an injectable stream `rand : ℕ → ℚ` of
  draws, each assumed (as the JS spec guarantees) to lie in `[0,1)`; the
  stream position is threaded explicitly.
* `Math.sqrt` is irrational-valued, hence modelled as an explicit function
  parameter `sqrtF : ℚ → ℚ`; the only fact used about it is that (like
  `Math.sqrt` on nonnegative arguments) it is nonnegative.
-/

set_option allowUnsafeReducibility true

attribute [semireducible] Rat.add Rat.mul Rat.sub Rat.inv

namespace WordCloud

/-- JS `Math.round`: round half toward positive infinity. -/
def jsRound (q : ℚ) : ℤ := ⌊q + 1/2⌋

/-- Round to nearest, ties to even — the rounding used by `ToUint8Clamp`
when a JS number is stored into a `Uint8ClampedArray`. -/
def roundHalfEven (q : ℚ) : ℤ :=
  let f := ⌊q⌋
  if q - f < 1/2 then f
  else if 1/2 < q - f then f + 1
  else if f % 2 = 0 then f else f + 1

/-- Storing a JS number into a `Uint8ClampedArray` cell: clamp to
`[0,255]` and round half to even. -/
def clampU8 (q : ℚ) : ℕ := (min 255 (max 0 (roundHalfEven q))).toNat

/-- `colorUtils.calculateBrightness`: `0.299*r + 0.587*g + 0.114*b`. -/
def calculateBrightness (r g b : ℕ) : ℚ :=
  (299 : ℚ)/1000 * r + (587 : ℚ)/1000 * g + (114 : ℚ)/1000 * b

/-- Value of a hexadecimal digit character. -/
def hexVal (c : Char) : ℕ :=
  if '0' ≤ c ∧ c ≤ '9' then c.toNat - '0'.toNat
  else if 'a' ≤ c ∧ c ≤ 'f' then c.toNat - 'a'.toNat + 10
  else if 'A' ≤ c ∧ c ≤ 'F' then c.toNat - 'A'.toNat + 10
  else 0

/-- Whether a character is a hexadecimal digit. -/
def isHexDigit (c : Char) : Bool :=
  ('0' ≤ c ∧ c ≤ '9') ∨ ('a' ≤ c ∧ c ≤ 'f') ∨ ('A' ≤ c ∧ c ≤ 'F')

/-- JS `parseInt(s, 16)` on the digit strings produced by slicing a hex
color literal: read the longest hex-digit run at the front; `none` models
the `NaN` returned when no digit is readable.  (Leading whitespace, signs
and `0x` prefixes never occur in those slices and are not modelled.) -/
def parseIntHex (l : List Char) : Option ℕ :=
  let ds := l.takeWhile isHexDigit
  if ds.isEmpty then none
  else some (ds.foldl (fun a c => 16 * a + hexVal c) 0)

/-- JS `hex.replace('#', '')`: remove the first occurrence of `#`. -/
def removeHash : List Char → List Char
  | [] => []
  | c :: rest => if c = '#' then rest else c :: removeHash rest

/-- An RGB triple as produced by the color helpers; components are
`Option ℕ` because `parseInt` can produce `NaN` (`none`) on malformed hex
and pixel reads can be `undefined`. -/
structure WColor where
  r : Option ℕ
  g : Option ℕ
  b : Option ℕ
deriving DecidableEq, Repr

/-- `colorUtils.hexToRgb`: strip the first `#`, then parse the slices
`[0,2)`, `[2,4)` and `[4,6)` as hexadecimal integers. -/
def hexToRgb (hex : String) : WColor :=
  let cleanHex := removeHash hex.toList
  { r := parseIntHex (cleanHex.take 2)
    g := parseIntHex ((cleanHex.drop 2).take 2)
    b := parseIntHex ((cleanHex.drop 4).take 2) }

/-- A flat RGBA pixel buffer (`Uint8ClampedArray` plus its length). -/
structure Buffer where
  len : ℕ
  val : ℕ → ℕ

/-- Indexed read from a buffer: `undefined` (`none`) outside `[0, len)`. -/
def Buffer.get? (data : Buffer) (i : ℤ) : Option ℕ :=
  if 0 ≤ i ∧ i < (data.len : ℤ) then some (data.val i.toNat) else none

/-- Brightness of three possibly-undefined channel reads; any `undefined`
input makes the JS expression `NaN`, modelled as `none`. -/
def brightnessO : Option ℕ → Option ℕ → Option ℕ → Option ℚ
  | some r, some g, some b => some (calculateBrightness r g b)
  | _, _, _ => none

/-- JS `o < q` where `o` may be `NaN`: false on `NaN`. -/
def optLT (o : Option ℚ) (q : ℚ) : Bool :=
  match o with
  | some b => decide (b < q)
  | none => false

/-- JS `q < o` where `o` may be `NaN`: false on `NaN`. -/
def optGT (o : Option ℚ) (q : ℚ) : Bool :=
  match o with
  | some b => decide (q < b)
  | none => false

/-- JS `a < 10` on a possibly-`undefined` alpha read: false on `undefined`. -/
def optLTNat (o : Option ℕ) (q : ℕ) : Bool :=
  match o with
  | some a => decide (a < q)
  | none => false

/-! ## ImageProcessor -/

/-- The horizontal Sobel kernel of `applyEdgeDetection`. -/
def sobelX : List ℤ := [-1, 0, 1, -2, 0, 2, -1, 0, 1]

/-- The vertical Sobel kernel of `applyEdgeDetection`. -/
def sobelY : List ℤ := [-1, -2, -1, 0, 0, 0, 1, 2, 1]

/-- One directional gradient of `applyEdgeDetection` at interior pixel
`(x, y)` (so `1 ≤ x` and `1 ≤ y`) and channel `c`: the sum over the 3×3
neighbourhood of `copy[((y+ky)*width+(x+kx))*4+c] * kernel[(ky+1)*3+(kx+1)]`,
the neighbourhood reads taken from the unmodified copy `data`. -/
def grad (kernel : List ℤ) (data : ℕ → ℕ) (w x y c : ℕ) : ℤ :=
  (List.range 9).foldl
    (fun acc k =>
      let ky := k / 3
      let kx := k % 3
      let idx := ((y - 1 + ky) * w + (x - 1 + kx)) * 4 + c
      acc + (data idx : ℤ) * kernel.getD k 0)
    0

/-- The flat indices `applyEdgeDetection` writes: index `i` decomposes as
`i = (y*width + x)*4 + c` with `c ∈ {0,1,2}` an RGB channel and `(x, y)`
an interior pixel (`1 ≤ x ≤ width-2`, `1 ≤ y ≤ height-2`). -/
def edgeWrites (w h i : ℕ) : Prop :=
  0 < w ∧ i % 4 < 3 ∧
    1 ≤ i / 4 % w ∧ i / 4 % w + 1 < w ∧
    1 ≤ i / 4 / w ∧ i / 4 / w + 1 < h

instance (w h i : ℕ) : Decidable (edgeWrites w h i) := by
  unfold edgeWrites; infer_instance

/-- The value `ImageProcessor.applyEdgeDetection` stores at a written
index `i`: `Math.max(0, copy[i] - sqrt(gx^2 + gy^2) * (strength/5))`,
clamped-rounded by the `Uint8ClampedArray` store. -/
def edgeValue (data : ℕ → ℕ) (w i : ℕ) (strength : ℚ) (sqrtF : ℚ → ℚ) : ℕ :=
  let c := i % 4
  let x := i / 4 % w
  let y := i / 4 / w
  let gx := grad sobelX data w x y c
  let gy := grad sobelY data w x y c
  let mag := sqrtF ((gx * gx + gy * gy : ℤ) : ℚ) * (strength / 5)
  clampU8 (max 0 ((data i : ℚ) - mag))

/-- `ImageProcessor.applyEdgeDetection`, as the pointwise result of the
in-place double loop.  Since every neighbourhood read goes to the
unmodified `copy` of the buffer and each interior index is written exactly
once, the loop is equivalent to this pointwise map: a no-op when
`strength ≤ 0`, the Sobel-darkened value at written indices, and the
original value elsewhere (border pixels and alpha channels untouched).
`Math.sqrt` is passed in as `sqrtF`. -/
def applyEdgeDetection (w h : ℕ) (data : ℕ → ℕ) (strength : ℚ)
    (sqrtF : ℚ → ℚ) : ℕ → ℕ := fun i =>
  if strength ≤ 0 then data i
  else if edgeWrites w h i then edgeValue data w i strength sqrtF
  else data i

/-- Threshold cutoff: `Math.round(255 * (thresholdPercent / 100))`. -/
def thresholdValue (thresholdPercent : ℚ) : ℤ :=
  jsRound (255 * (thresholdPercent / 100))

/-- Whether the pixel whose first flat index is `base` is forced white by
`applyThreshold`: its brightness (read from indices `base..base+2`,
`undefined` reads making the comparison false) exceeds the cutoff. -/
def whitens (len : ℕ) (data : ℕ → ℕ) (thresholdPercent : ℚ) (base : ℕ) : Bool :=
  optGT (brightnessO (Buffer.get? ⟨len, data⟩ base)
      (Buffer.get? ⟨len, data⟩ (base + 1))
      (Buffer.get? ⟨len, data⟩ (base + 2)))
    (thresholdValue thresholdPercent)

/-- `ImageProcessor.applyThreshold`, pointwise: the loop walks the buffer
in steps of 4 and, when the pixel's brightness exceeds the cutoff, writes
255 to its three RGB cells (a write at an index `≥ len` being silently
dropped by the typed array, and alpha left untouched). -/
def applyThreshold (len : ℕ) (data : ℕ → ℕ) (thresholdPercent : ℚ) : ℕ → ℕ :=
  fun i =>
    if i < len ∧ i % 4 < 3 ∧ whitens len data thresholdPercent (i / 4 * 4)
    then 255 else data i

/-- `ImageProcessor.checkMask`: flat index from floored coordinates, false
when the index misses the buffer, false when the alpha read is a defined
value below 10, else whether the brightness is a defined value below
`density`. -/
def checkMask (data : Buffer) (x y : ℚ) (width : ℕ) (density : ℚ) : Bool :=
  let idx : ℤ := (⌊y⌋ * width + ⌊x⌋) * 4
  if idx < 0 ∨ (data.len : ℤ) ≤ idx then false
  else if optLTNat (data.get? (idx + 3)) 10 then false
  else optLT (brightnessO (data.get? idx) (data.get? (idx + 1))
      (data.get? (idx + 2))) density

/-- Result of `ImageProcessor.getPixelColor`; `none` components model the
`undefined` reads (and `NaN` brightness) of an out-of-range query. -/
structure Pixel where
  r : Option ℕ
  g : Option ℕ
  b : Option ℕ
  brightness : Option ℚ
deriving DecidableEq, Repr

/-- `ImageProcessor.getPixelColor`: unguarded reads at the flat index of
the floored coordinates. -/
def getPixelColor (data : Buffer) (x y : ℚ) (width : ℕ) : Pixel :=
  let idx : ℤ := (⌊y⌋ * width + ⌊x⌋) * 4
  { r := data.get? idx
    g := data.get? (idx + 1)
    b := data.get? (idx + 2)
    brightness := brightnessO (data.get? idx) (data.get? (idx + 1))
      (data.get? (idx + 2)) }

/-! ## WordPlacer -/

/-- A placement size tier: `{ scale, attempts }`. -/
structure Tier where
  scale : ℚ
  attempts : ℕ
deriving DecidableEq, Repr

/-- `DEFAULT_SIZE_TIERS` from `WordPlacer.js`. -/
def DEFAULT_SIZE_TIERS : List Tier :=
  [⟨4, 200⟩, ⟨5/2, 1000⟩, ⟨3/2, 5000⟩, ⟨1, 15000⟩, ⟨4/5, 40000⟩]

/-- `const isGiantTier = tier.scale >= 3.0`. -/
def isGiantTier (t : Tier) : Bool := decide ((3 : ℚ) ≤ t.scale)

/-- The effective font size of a tier: `Math.floor(fontSize * tier.scale)`,
replaced by `Math.floor(width * 0.8)` when it exceeds `width * 0.8`. -/
def fontSizePx (fontSize : ℚ) (t : Tier) (width : ℕ) : ℤ :=
  let f := ⌊fontSize * t.scale⌋
  if (width : ℚ) * (4/5) < (f : ℚ) then ⌊(width : ℚ) * (4/5)⌋ else f

/-- The attempt budget actually executed for a tier:
`Math.min(tier.attempts, 50000)`. -/
def tierAttempts (t : Tier) : ℕ := min t.attempts 50000

/-- The collision grid: flat cell index to cell value (`Uint8Array`). -/
abbrev Grid := ℕ → ℕ

/-- Number of iterations of a JS loop `for (v = s; v < e; v += 2)`. -/
def strideCount (s : ℤ) (e : ℚ) : ℕ := (⌈(e - s) / 2⌉).toNat

/-- `WordPlacer.checkCollision`: true when the box leaves the canvas, else
true iff the stride-2 scan of the box finds an occupied grid cell. -/
def checkCollision (grid : Grid) (cx cy boxW boxH : ℚ)
    (width height : ℕ) : Bool :=
  let startX : ℤ := ⌊cx - boxW / 2⌋
  let startY : ℤ := ⌊cy - boxH / 2⌋
  let endX : ℚ := startX + boxW
  let endY : ℚ := startY + boxH
  if startX < 0 ∨ startY < 0 ∨ (width : ℚ) ≤ endX ∨ (height : ℚ) ≤ endY then
    true
  else
    (List.range (strideCount startY endY)).any fun ky =>
      (List.range (strideCount startX endX)).any fun kx =>
        decide (grid ((startY + 2 * ky) * width + (startX + 2 * kx)).toNat = 1)

/-- `WordPlacer.markGrid`, as the pointwise result of its clipped double
loop: the loop sets `grid[y*width + x] = 1` exactly for `0 ≤ y < height`,
`0 ≤ x < width` with `startY - padding ≤ y < endY + padding` and
`startX - padding ≤ x < endX + padding`; since `x < width`, the flat index
determines `(x, y)` uniquely, so cell `i` is set iff its decomposition
`(i % width, i / width)` lies in that clipped range. -/
def markGrid (grid : Grid) (cx cy boxW boxH : ℚ) (width height : ℕ)
    (padding : ℤ) : Grid := fun i =>
  let startX : ℤ := ⌊cx - boxW / 2⌋
  let startY : ℤ := ⌊cy - boxH / 2⌋
  let endX : ℚ := startX + boxW
  let endY : ℚ := startY + boxH
  let x : ℤ := (i % width : ℕ)
  let y : ℤ := (i / width : ℕ)
  if 0 < width ∧ i < width * height ∧
      startY - padding ≤ y ∧ (y : ℚ) < endY + padding ∧
      startX - padding ≤ x ∧ (x : ℚ) < endX + padding
  then 1 else grid i

/-- `WordPlacer.checkPlacementBounds`: the four box corners and the center
must all pass `checkMask`. -/
def checkPlacementBounds (data : Buffer) (cx cy boxW boxH : ℚ)
    (width : ℕ) (density : ℚ) : Bool :=
  let startX : ℚ := ⌊cx - boxW / 2⌋
  let startY : ℚ := ⌊cy - boxH / 2⌋
  let endX : ℚ := startX + boxW
  let endY : ℚ := startY + boxH
  [(startX, startY), (endX, startY), (startX, endY), (endX, endY),
    (cx, cy)].all fun p => checkMask data p.1 p.2 width density

/-- The color modes of `getWordColor`; `other` stands for any string other
than the four named cases, which the `switch` sends to the `default`
branch together with `single`. -/
inductive ColorMode where
  | source
  | random
  | palette
  | single
  | other
deriving DecidableEq, Repr

/-- `colorUtils.randomColor`: three `Math.floor(Math.random() * 200)`
draws, consuming three positions of the random stream. -/
def randomColor (rand : ℕ → ℚ) (k : ℕ) : WColor × ℕ :=
  (⟨some (⌊rand k * 200⌋.toNat), some (⌊rand (k + 1) * 200⌋.toNat),
    some (⌊rand (k + 2) * 200⌋.toNat)⟩, k + 3)

/-- `colorUtils.randomFromPalette`: `{r:0,g:0,b:0}` on an empty palette
(no draw consumed), else hex-decode a uniformly drawn entry. -/
def randomFromPalette (palette : List String) (rand : ℕ → ℚ) (k : ℕ) :
    WColor × ℕ :=
  if palette.isEmpty then (⟨some 0, some 0, some 0⟩, k)
  else (hexToRgb (palette.getD (⌊rand k * palette.length⌋).toNat ""), k + 1)

/-- `WordPlacer.getWordColor`, threading the random stream position. -/
def getWordColor (mode : ColorMode) (pixelColor : Pixel)
    (singleColor : String) (palette : List String) (rand : ℕ → ℚ) (k : ℕ) :
    WColor × ℕ :=
  match mode with
  | .source => (⟨pixelColor.r, pixelColor.g, pixelColor.b⟩, k)
  | .random => randomColor rand k
  | .palette => randomFromPalette palette rand k
  | .single => (hexToRgb singleColor, k)
  | .other => (hexToRgb singleColor, k)

/-- The options record destructured at the top of `placeWords`. -/
structure Options where
  width : ℕ
  height : ℕ
  words : List String
  heroWords : List String
  fontSize : ℚ
  density : ℚ
  colorMode : ColorMode
  color : String
  customPalette : List String

/-- One committed word: the sampled center, the chosen word, and the fill
color and alpha of the `fillText` call (alpha before `toFixed(2)`
formatting). -/
structure Commit where
  tierScale : ℚ
  x : ℤ
  y : ℤ
  word : String
  color : WColor
  alpha : Option ℚ

/-- The candidate-word selection of an attempt: hero words for giant tiers
when the hero list is non-empty, else the full word list, indexed by one
uniform draw. -/
def pickWord (o : Options) (giant : Bool) (rand : ℕ → ℚ) (k : ℕ) : String :=
  if giant && !o.heroWords.isEmpty then
    o.heroWords.getD (⌊rand k * o.heroWords.length⌋).toNat ""
  else o.words.getD (⌊rand k * o.words.length⌋).toNat ""

/-- The committed alpha:
`colorMode === 'source' ? 1.0 : (1 - pixelColor.brightness / 255)`
(`NaN` brightness propagating to a `none` alpha). -/
def commitAlpha (mode : ColorMode) (pc : Pixel) : Option ℚ :=
  if mode = ColorMode.source then some 1
  else pc.brightness.map fun b => 1 - b / 255

/-- The attempt loop of `placeWords` for one tier.  Each attempt draws
`rx`, `ry`; bails out unless `checkMask` passes; for giant tiers bails out
when the sampled brightness exceeds 100; draws the word (hero words for
giant tiers when available), measures it (`measure` standing for
`measureText` at the active font size), and commits when bounds and
collision checks pass, marking the grid with padding 2.  Returns the final
grid, stream position and the list of commits in order. -/
def attemptsLoop (o : Options) (data : Buffer) (measure : ℤ → String → ℚ)
    (rand : ℕ → ℚ) (tier : Tier) (fpx : ℤ) :
    ℕ → ℕ → Grid → Grid × ℕ × List Commit
  | 0, k, grid => (grid, k, [])
  | n + 1, k, grid =>
    let rx : ℤ := ⌊rand k * o.width⌋
    let ry : ℤ := ⌊rand (k + 1) * o.height⌋
    if checkMask data rx ry o.width o.density then
      if isGiantTier tier &&
          optGT (getPixelColor data rx ry o.width).brightness 100 then
        attemptsLoop o data measure rand tier fpx n (k + 2) grid
      else
        let word := pickWord o (isGiantTier tier) rand (k + 2)
        let boxW : ℚ := ⌈measure fpx word⌉
        let boxH : ℚ := ⌈(fpx : ℚ) * (4/5)⌉
        if !checkPlacementBounds data rx ry boxW boxH o.width o.density then
          attemptsLoop o data measure rand tier fpx n (k + 3) grid
        else if checkCollision grid rx ry boxW boxH o.width o.height then
          attemptsLoop o data measure rand tier fpx n (k + 3) grid
        else
          let pc := getPixelColor data rx ry o.width
          let wck := getWordColor o.colorMode pc o.color o.customPalette
            rand (k + 3)
          let commit : Commit := ⟨tier.scale, rx, ry, word, wck.1,
            commitAlpha o.colorMode pc⟩
          let grid2 := markGrid grid (rx : ℚ) (ry : ℚ) boxW boxH
            o.width o.height 2
          let res := attemptsLoop o data measure rand tier fpx n wck.2 grid2
          (res.1, res.2.1, commit :: res.2.2)
    else attemptsLoop o data measure rand tier fpx n (k + 2) grid

/-- The tier loop of `placeWords`: each tier computes its capped font size
and attempt budget and runs its attempt loop on the grid left by the
previous tiers. -/
def tierLoop (o : Options) (data : Buffer) (measure : ℤ → String → ℚ)
    (rand : ℕ → ℚ) : List Tier → ℕ → Grid → Grid × ℕ × List Commit
  | [], k, grid => (grid, k, [])
  | t :: rest, k, grid =>
    let fpx := fontSizePx o.fontSize t o.width
    let res := attemptsLoop o data measure rand t fpx (tierAttempts t) k grid
    let res2 := tierLoop o data measure rand rest res.2.1 res.1
    (res2.1, res2.2.1, res.2.2 ++ res2.2.2)

/-- `WordPlacer.placeWords`: allocate a fresh all-zero collision grid and
run the tier schedule over it. -/
def placeWords (tiers : List Tier) (o : Options) (data : Buffer)
    (measure : ℤ → String → ℚ) (rand : ℕ → ℚ) : Grid × ℕ × List Commit :=
  tierLoop o data measure rand tiers 0 fun _ => 0

/-! ## PresetPanel word parsing -/

/-- A separator of the split regex `[\n,]+`. -/
def isSep (c : Char) : Bool := c = '\n' || c = ','

/-- JS `String.prototype.split(/[\n,]+/)`, single pass: `cur` is the
reversed current field and `inRun` records whether the previous character
belonged to a separator run (a maximal run yields one field boundary, so
further separators of the same run are skipped). -/
def splitFieldsGo : List Char → List Char → Bool → List (List Char)
  | [], cur, _ => [cur.reverse]
  | c :: rest, cur, inRun =>
    if isSep c then
      if inRun then splitFieldsGo rest cur true
      else cur.reverse :: splitFieldsGo rest [] true
    else splitFieldsGo rest (c :: cur) false

/-- JS `String.prototype.split(/[\n,]+/)`: fields between maximal
separator runs, keeping empty fields at the ends. -/
def splitFields (l : List Char) : List (List Char) :=
  splitFieldsGo l [] false

/-- A whitespace character stripped by JS `trim` (the cases that can occur
in the word input: space, tab, newline, carriage return). -/
def isWS (c : Char) : Bool := c = ' ' || c = '\t' || c = '\n' || c = '\r'

/-- JS `String.prototype.trim`: strip whitespace at both ends. -/
def jsTrim (l : List Char) : List Char :=
  ((l.dropWhile isWS).reverse.dropWhile isWS).reverse

/-- The split-trim-filter part of `WordSettings.parseAndUpdateWords`. -/
def parsedWords (raw : String) : List String :=
  ((splitFields raw.toList).map fun f => String.mk (jsTrim f)).filter
    fun w => w.length > 0

/-- `WordSettings.parseAndUpdateWords`: the state's word list becomes the
parsed list, or the fallback pair `['Word', 'Portrait']` when it is
empty. -/
def parseAndUpdateWords (raw : String) : List String :=
  if (parsedWords raw).length > 0 then parsedWords raw
  else ["Word", "Portrait"]

/-! ## Helper lemmas -/

/-- `optLT` can only be true on a defined value below the bound. -/
theorem optLT_true {o : Option ℚ} {q : ℚ} (h : optLT o q = true) :
    ∃ b, o = some b ∧ b < q := by
  cases o with
  | none => simp [optLT] at h
  | some b =>
    refine ⟨b, rfl, ?_⟩
    simpa [optLT] using h

/-- A read out of the buffer is `undefined`. -/
theorem Buffer.get?_eq_none {len : ℕ} {d : ℕ → ℕ} {z : ℤ}
    (h : z < 0 ∨ (len : ℤ) ≤ z) : Buffer.get? ⟨len, d⟩ z = none := by
  unfold Buffer.get?
  rw [if_neg]
  dsimp only
  omega

/-- Two buffers agreeing (as functions) at an index have equal reads. -/
theorem Buffer.get?_congr {len : ℕ} {d1 d2 : ℕ → ℕ} (z : ℤ)
    (h : ∀ n : ℕ, (n : ℤ) = z → d1 n = d2 n) :
    Buffer.get? ⟨len, d1⟩ z = Buffer.get? ⟨len, d2⟩ z := by
  unfold Buffer.get?
  split
  case isTrue hz => exact congrArg some (h z.toNat (by omega))
  case isFalse => rfl

/-- `checkMask` passing means the pixel's brightness is a defined value
below the density cutoff (as also reported by `getPixelColor`). -/
theorem checkMask_brightness {data : Buffer} {x y : ℚ} {w : ℕ} {d : ℚ}
    (h : checkMask data x y w d = true) :
    ∃ b, (getPixelColor data x y w).brightness = some b ∧ b < d := by
  simp only [checkMask] at h
  split at h
  · exact absurd h (by simp)
  · split at h
    · exact absurd h (by simp)
    · exact optLT_true h

/-- A pixel not whitened by `applyThreshold` keeps its value. -/
theorem applyThreshold_eq_self {len : ℕ} {data : ℕ → ℕ} {p : ℚ} {j : ℕ}
    (hw : ¬ whitens len data p (j / 4 * 4) = true) :
    applyThreshold len data p j = data j := by
  unfold applyThreshold
  rw [if_neg]
  rintro ⟨-, -, h3⟩
  exact hw h3

/-- C2 main step: a second `applyThreshold` pass recomputes the same
whitening decision at a pixel the first pass left untouched. -/
theorem whitens_applyThreshold {len : ℕ} {data : ℕ → ℕ} {p : ℚ} {i : ℕ}
    (hw : ¬ whitens len data p (i / 4 * 4) = true) :
    whitens len (applyThreshold len data p) p (i / 4 * 4)
      = whitens len data p (i / 4 * 4) := by
  have hsib : ∀ n : ℕ, n / 4 * 4 = i / 4 * 4 →
      applyThreshold len data p n = data n := by
    intro n h4
    apply applyThreshold_eq_self
    rw [h4]
    exact hw
  unfold whitens
  rw [Buffer.get?_congr _ fun n hn => hsib n (by omega),
    Buffer.get?_congr _ fun n hn => hsib n (by omega),
    Buffer.get?_congr _ fun n hn => hsib n (by omega)]

/-! ## C2 -/

/-- C2: `applyThreshold` is idempotent — applying it twice with the same
threshold percentage gives, at every buffer index, the same value as
applying it once (pixels forced white stay white, others are untouched by
both passes). -/
theorem applyThreshold_idempotent (len : ℕ) (data : ℕ → ℕ) (p : ℚ) (i : ℕ) :
    applyThreshold len (applyThreshold len data p) p i
      = applyThreshold len data p i := by
  show (if i < len ∧ i % 4 < 3 ∧
      whitens len (applyThreshold len data p) p (i / 4 * 4) then 255
    else applyThreshold len data p i) = applyThreshold len data p i
  split
  case isTrue h =>
    obtain ⟨h1, h2, h3⟩ := h
    by_cases hw : whitens len data p (i / 4 * 4) = true
    · unfold applyThreshold
      rw [if_pos ⟨h1, h2, hw⟩]
    · exact absurd (whitens_applyThreshold hw ▸ h3) hw
  case isFalse => rfl

/-! ## C8 -/

/-- C8: `checkMask` is monotone in the density parameter — with buffer,
coordinates and width fixed, a pixel eligible at density `D` stays
eligible at every larger density `D'`. -/
theorem checkMask_monotone (data : Buffer) (x y : ℚ) (w : ℕ) (D D' : ℚ)
    (hD : D < D') (h : checkMask data x y w D = true) :
    checkMask data x y w D' = true := by
  simp only [checkMask] at h ⊢
  split at h
  · exact absurd h (by simp)
  · split at h
    · exact absurd h (by simp)
    · rw [if_neg (by assumption), if_neg (by assumption)]
      obtain ⟨b, hb, hlt⟩ := optLT_true h
      rw [hb]
      unfold optLT
      exact decide_eq_true (lt_trans hlt hD)

/-- C8 witness: a concrete dark opaque pixel eligible at density 50 is
still eligible at density 100. -/
theorem checkMask_monotone_witness :
    ((50 : ℚ) < 100 ∧ checkMask ⟨16, fun i => if i % 4 = 3 then 255 else 0⟩
        0 0 2 50 = true) ∧
      checkMask ⟨16, fun i => if i % 4 = 3 then 255 else 0⟩ 0 0 2 100 = true := by
  refine ⟨⟨by norm_num, by decide⟩, ?_⟩
  exact checkMask_monotone _ 0 0 2 50 100 (by norm_num) (by decide)

/-! ## C3 -/

/-- A 2×2 opaque black buffer (`len = 2*2*4 = 16`). -/
def blackBuf2x2 : Buffer := ⟨16, fun i => if i % 4 = 3 then 255 else 0⟩

/-- C3 counterexample: on the 2×2 buffer, the out-of-range coordinate
`x = 3` (width is 2) has a flat index that wraps into the next row and
still lands inside the buffer, so `checkMask` answers `true`, not the
claimed `false`; and `getPixelColor` at the out-of-range `y = 5` returns
`undefined` components, not the claimed zero color. -/
theorem query_oob_counterexample :
    checkMask blackBuf2x2 3 0 2 100 = true ∧
      getPixelColor blackBuf2x2 0 5 2 = ⟨none, none, none, none⟩ := by
  constructor
  · decide
  · decide

/-- C3 amended: a query whose computed flat index misses the buffer never
throws — `checkMask` returns `false` and `getPixelColor` returns the
all-`undefined` (not zero) pixel; an out-of-range coordinate whose flat
index still lands inside the buffer is answered as if it named the
wrapped pixel. -/
theorem query_oob_safe (data : Buffer) (x y : ℚ) (w : ℕ) (density : ℚ)
    (h : (⌊y⌋ * w + ⌊x⌋) * 4 < 0 ∨ (data.len : ℤ) ≤ (⌊y⌋ * w + ⌊x⌋) * 4) :
    checkMask data x y w density = false ∧
      getPixelColor data x y w = ⟨none, none, none, none⟩ := by
  obtain ⟨len, val⟩ := data
  dsimp only at h
  constructor
  · simp only [checkMask]
    rw [if_pos h]
  · have h0 : Buffer.get? ⟨len, val⟩ ((⌊y⌋ * w + ⌊x⌋) * 4) = none :=
      Buffer.get?_eq_none (by omega)
    have h1 : Buffer.get? ⟨len, val⟩ ((⌊y⌋ * w + ⌊x⌋) * 4 + 1) = none :=
      Buffer.get?_eq_none (by omega)
    have h2 : Buffer.get? ⟨len, val⟩ ((⌊y⌋ * w + ⌊x⌋) * 4 + 2) = none :=
      Buffer.get?_eq_none (by omega)
    simp only [getPixelColor, h0, h1, h2]
    rfl

/-- C3 amended witness: the 2×2 buffer queried at `y = 5` (flat index 40,
beyond length 16). -/
theorem query_oob_safe_witness :
    ((⌊(5 : ℚ)⌋ * 2 + ⌊(0 : ℚ)⌋) * 4 < 0 ∨
        (blackBuf2x2.len : ℤ) ≤ (⌊(5 : ℚ)⌋ * 2 + ⌊(0 : ℚ)⌋) * 4) ∧
      checkMask blackBuf2x2 0 5 2 120 = false ∧
      getPixelColor blackBuf2x2 0 5 2 = ⟨none, none, none, none⟩ := by
  refine ⟨by decide, ?_⟩
  exact query_oob_safe blackBuf2x2 0 5 2 120 (by decide)

/-! ## C4 -/

/-- The all-free collision grid. -/
def zeroGrid : Grid := fun _ => 0

/-- C4 counterexample: a degenerate box of zero width and height (center
(3,3) on a 6×6 canvas) does not collide with itself after marking — the
stride-2 scan of an empty box scans no cell, so `checkCollision` returns
`false` although `markGrid` (padding 2) marked cells around the center. -/
theorem markGrid_self_counterexample :
    checkCollision (markGrid zeroGrid 3 3 0 0 6 6 2) 3 3 0 0 6 6 = false := by
  decide

/-- C4 amended: for a box of positive width and height, after `markGrid`
(any nonnegative padding) a `checkCollision` over the same box and canvas
reports a collision: either the box leaves the canvas (immediate `true`),
or the stride-2 scan starts at the box's top-left cell, which `markGrid`
has just set. -/
theorem markGrid_checkCollision_self (grid : Grid) (cx cy boxW boxH : ℚ)
    (width height : ℕ) (padding : ℤ) (hp : 0 ≤ padding)
    (hW : 0 < boxW) (hH : 0 < boxH) :
    checkCollision (markGrid grid cx cy boxW boxH width height padding)
      cx cy boxW boxH width height = true := by
  simp only [checkCollision]
  split
  · rfl
  case isFalse hb =>
    push_neg at hb
    obtain ⟨hx0, hy0, hxw, hyh⟩ := hb
    set sx : ℤ := ⌊cx - boxW / 2⌋ with hsx
    set sy : ℤ := ⌊cy - boxH / 2⌋ with hsy
    have hsxq : (0 : ℚ) ≤ (sx : ℚ) := by exact_mod_cast hx0
    have hsyq : (0 : ℚ) ≤ (sy : ℚ) := by exact_mod_cast hy0
    have hwq : (sx : ℚ) < (width : ℚ) := by linarith
    have hhq : (sy : ℚ) < (height : ℚ) := by linarith
    have hsxw : sx < (width : ℤ) := by exact_mod_cast hwq
    have hsyh : sy < (height : ℤ) := by exact_mod_cast hhq
    have wpos : 0 < width := by
      have : (0 : ℚ) < (width : ℚ) := by linarith
      exact_mod_cast this
    set m : ℕ := sy.toNat with hm
    set n : ℕ := sx.toNat with hn
    have hsym : sy = (m : ℤ) := (Int.toNat_of_nonneg hy0).symm
    have hsxn : sx = (n : ℤ) := (Int.toNat_of_nonneg hx0).symm
    have hnw : n < width := by omega
    have hmh : m < height := by omega
    rw [List.any_eq_true]
    refine ⟨0, List.mem_range.mpr ?_, ?_⟩
    · have h2 : (0 : ℚ) < boxH / 2 := by positivity
      have : ((sy : ℚ) + boxH - sy) / 2 = boxH / 2 := by ring
      have hc : 0 < ⌈((sy : ℚ) + boxH - sy) / 2⌉ := by
        rw [this]; exact Int.ceil_pos.mpr h2
      unfold strideCount
      omega
    · rw [List.any_eq_true]
      refine ⟨0, List.mem_range.mpr ?_, ?_⟩
      · have h2 : (0 : ℚ) < boxW / 2 := by positivity
        have : ((sx : ℚ) + boxW - sx) / 2 = boxW / 2 := by ring
        have hc : 0 < ⌈((sx : ℚ) + boxW - sx) / 2⌉ := by
          rw [this]; exact Int.ceil_pos.mpr h2
        unfold strideCount
        omega
      · rw [decide_eq_true_eq]
        have hidx : ((sy + 2 * ((0 : ℕ) : ℤ)) * width
            + (sx + 2 * ((0 : ℕ) : ℤ))).toNat = m * width + n := by
          have : (sy + 2 * ((0 : ℕ) : ℤ)) * width + (sx + 2 * ((0 : ℕ) : ℤ))
              = ((m * width + n : ℕ) : ℤ) := by
            rw [hsym, hsxn]; push_cast; ring
          rw [this, Int.toNat_natCast]
        rw [hidx]
        have hdiv : (m * width + n) / width = m := by
          rw [mul_comm m width, Nat.mul_add_div wpos, Nat.div_eq_of_lt hnw,
            Nat.add_zero]
        have hmod : (m * width + n) % width = n := by
          rw [mul_comm m width, Nat.mul_add_mod, Nat.mod_eq_of_lt hnw]
        simp only [markGrid]
        rw [if_pos]
        refine ⟨wpos, ?_, ?_, ?_, ?_, ?_⟩
        · calc m * width + n < m * width + width := by omega
            _ = (m + 1) * width := by ring
            _ ≤ height * width := Nat.mul_le_mul_right width (by omega)
            _ = width * height := Nat.mul_comm height width
        · rw [hdiv]; omega
        · rw [hdiv, ← hsym]
          have hpq : (0 : ℚ) ≤ (padding : ℚ) := by exact_mod_cast hp
          linarith
        · rw [hmod]; omega
        · rw [hmod, ← hsxn]
          have hpq : (0 : ℚ) ≤ (padding : ℚ) := by exact_mod_cast hp
          linarith

/-- C4 amended witness: a 2×2 box centered at (3,3) on an 8×8 canvas,
marked with the default padding 2, collides with itself. -/
theorem markGrid_checkCollision_self_witness :
    ((0 : ℤ) ≤ 2 ∧ (0 : ℚ) < 2 ∧ (0 : ℚ) < 2) ∧
      checkCollision (markGrid zeroGrid 3 3 2 2 8 8 2) 3 3 2 2 8 8 = true := by
  refine ⟨⟨by norm_num, by norm_num, by norm_num⟩, ?_⟩
  exact markGrid_checkCollision_self zeroGrid 3 3 2 2 8 8 2 (by norm_num)
    (by norm_num) (by norm_num)

/-! ## C7 -/

/-- The claim's version of the effective font size, stated for comparison
exactly as worded: `baseFontSize times the tier's scale, capped so it
never exceeds 80% of the canvas width` — no rounding. -/
def fontSizeClaimed (fontSize scale : ℚ) (width : ℕ) : ℚ :=
  if (width : ℚ) * (4/5) < fontSize * scale then (width : ℚ) * (4/5)
  else fontSize * scale

/-- C7 counterexample: at `fontSize = 7`, `scale = 1.5`, `width = 100`,
the code floors `10.5` to `10`, so the effective font size differs from
the claimed uncapped product `10.5`. -/
theorem fontSizePx_counterexample :
    ((fontSizePx 7 ⟨3/2, 200⟩ 100 : ℤ) : ℚ) ≠ fontSizeClaimed 7 (3/2) 100 := by
  decide

/-- C7 amended: the effective font size is `⌊fontSize * scale⌋`, replaced
by `⌊width * 0.8⌋` when it exceeds `width * 0.8`; in all cases it never
exceeds 80% of the canvas width; and the executed attempt budget is the
configured value capped at the hard ceiling 50000. -/
theorem fontSizePx_spec (fontSize : ℚ) (t : Tier) (width : ℕ) :
    ((fontSizePx fontSize t width : ℤ) : ℚ) ≤ (width : ℚ) * (4/5) ∧
      (((⌊fontSize * t.scale⌋ : ℤ) : ℚ) ≤ (width : ℚ) * (4/5) →
        fontSizePx fontSize t width = ⌊fontSize * t.scale⌋) ∧
      ((width : ℚ) * (4/5) < ((⌊fontSize * t.scale⌋ : ℤ) : ℚ) →
        fontSizePx fontSize t width = ⌊(width : ℚ) * (4/5)⌋) ∧
      tierAttempts t = min t.attempts 50000 ∧
      tierAttempts t ≤ 50000 := by
  refine ⟨?_, ?_, ?_, rfl, Nat.min_le_right _ _⟩
  · simp only [fontSizePx]
    split
    · exact Int.floor_le _
    · linarith [not_lt.mp (by assumption : ¬ (width : ℚ) * (4/5)
        < ((⌊fontSize * t.scale⌋ : ℤ) : ℚ))]
  · intro h
    simp only [fontSizePx]
    rw [if_neg (not_lt.mpr h)]
  · intro h
    simp only [fontSizePx]
    rw [if_pos h]

/-- C7 amended witness: `fontSize = 10`, `scale = 2`, `width = 100`,
configured attempts 70000 — the product 20 is under the 80-pixel cap and
is kept; the attempt budget is capped at 50000. -/
theorem fontSizePx_spec_witness :
    (((⌊(10 : ℚ) * (2 : ℚ)⌋ : ℤ) : ℚ) ≤ (100 : ℚ) * (4/5)) ∧
      fontSizePx 10 ⟨2, 70000⟩ 100 = ⌊(10 : ℚ) * (2 : ℚ)⌋ ∧
      tierAttempts ⟨2, 70000⟩ ≤ 50000 := by
  refine ⟨by decide, ?_, ?_⟩
  · exact (fontSizePx_spec 10 ⟨2, 70000⟩ 100).2.1 (by decide)
  · exact (fontSizePx_spec 10 ⟨2, 70000⟩ 100).2.2.2.2

/-! ## C9 -/

/-- C9: for every raw words input, the parsed word list is never empty —
in particular, when splitting, trimming and filtering leaves nothing, the
list silently falls back to the default pair `['Word', 'Portrait']`. -/
theorem parseAndUpdateWords_nonempty (raw : String) :
    parseAndUpdateWords raw ≠ [] ∧
      (parsedWords raw = [] →
        parseAndUpdateWords raw = ["Word", "Portrait"]) := by
  constructor
  · unfold parseAndUpdateWords
    split
    case isTrue h => exact List.ne_nil_of_length_pos h
    case isFalse h => simp
  · intro he
    unfold parseAndUpdateWords
    rw [he]
    simp

/-- C9 witness: the input `" ,, "` parses to nothing and falls back to
the default word pair. -/
theorem parseAndUpdateWords_nonempty_witness :
    (parsedWords " ,, " = []) ∧
      parseAndUpdateWords " ,, " ≠ [] ∧
      parseAndUpdateWords " ,, " = ["Word", "Portrait"] := by
  have h : parsedWords " ,, " = [] := by decide
  have hmain := parseAndUpdateWords_nonempty " ,, "
  exact ⟨h, hmain.1, hmain.2 h⟩

/-! ## C1 -/

/-- Round-half-even never exceeds the ceiling. -/
theorem roundHalfEven_le_ceil (q : ℚ) : roundHalfEven q ≤ ⌈q⌉ := by
  simp only [roundHalfEven]
  split
  · exact Int.floor_le_ceil q
  · split
    · apply Int.add_one_le_ceil_iff.mpr
      have := Int.floor_le q
      have h2 : (0 : ℚ) < q - ⌊q⌋ := by linarith [(by assumption : (1:ℚ)/2 < q - ⌊q⌋)]
      linarith
    · split
      · exact Int.floor_le_ceil q
      · apply Int.add_one_le_ceil_iff.mpr
        have h1 : ¬ (q - ⌊q⌋ < 1/2) := by assumption
        push_neg at h1
        linarith
/-- A `Uint8ClampedArray` store of a value below a byte bound stays below
that bound. -/
theorem clampU8_le {q : ℚ} {n : ℕ} (h : q ≤ (n : ℚ)) : clampU8 q ≤ n := by
  unfold clampU8
  have hc : ⌈q⌉ ≤ (n : ℤ) := Int.ceil_le.mpr (by exact_mod_cast h)
  have hr : roundHalfEven q ≤ (n : ℤ) := le_trans (roundHalfEven_le_ceil q) hc
  have : min 255 (max 0 (roundHalfEven q)) ≤ (n : ℤ) := by omega
  omega

/-- The Sobel-darkened channel value never exceeds the original channel
value, as long as the square root is nonnegative and the strength is. -/
theorem edgeValue_le (data : ℕ → ℕ) (w i : ℕ) (strength : ℚ)
    (sqrtF : ℚ → ℚ) (hs : ∀ q, 0 ≤ sqrtF q) (hstr : 0 ≤ strength) :
    edgeValue data w i strength sqrtF ≤ data i := by
  unfold edgeValue
  apply clampU8_le
  have hmag : 0 ≤ sqrtF ((grad sobelX data w (i / 4 % w) (i / 4 / w) (i % 4)
        * grad sobelX data w (i / 4 % w) (i / 4 / w) (i % 4)
      + grad sobelY data w (i / 4 % w) (i / 4 / w) (i % 4)
        * grad sobelY data w (i / 4 % w) (i / 4 / w) (i % 4) : ℤ) : ℚ)
      * (strength / 5) :=
    mul_nonneg (hs _) (by positivity)
  have h0 : (0 : ℚ) ≤ (data i : ℚ) := by positivity
  exact max_le h0 (by linarith)

/-- C1: `applyEdgeDetection` is a no-op for `strength ≤ 0`; for positive
strength it writes only interior RGB channels, each written channel takes
the value `max(0, original - sqrt(gx²+gy²) * (strength/5))` with both
gradients computed from the unmodified input buffer, and (whenever the
square root function is nonnegative, as `Math.sqrt` is) no channel is
ever brightened. -/
theorem applyEdgeDetection_spec (w h : ℕ) (data : ℕ → ℕ) (strength : ℚ)
    (sqrtF : ℚ → ℚ) :
    (strength ≤ 0 → ∀ i, applyEdgeDetection w h data strength sqrtF i = data i) ∧
      (∀ i, ¬ edgeWrites w h i →
        applyEdgeDetection w h data strength sqrtF i = data i) ∧
      (0 < strength → ∀ i, edgeWrites w h i →
        applyEdgeDetection w h data strength sqrtF i
          = edgeValue data w i strength sqrtF) ∧
      ((∀ q, 0 ≤ sqrtF q) → ∀ i,
        applyEdgeDetection w h data strength sqrtF i ≤ data i) := by
  refine ⟨?_, ?_, ?_, ?_⟩
  · intro hs i
    unfold applyEdgeDetection
    rw [if_pos hs]
  · intro i hnw
    unfold applyEdgeDetection
    by_cases hs : strength ≤ 0
    · rw [if_pos hs]
    · rw [if_neg hs, if_neg hnw]
  · intro hpos i hw
    unfold applyEdgeDetection
    rw [if_neg (not_le.mpr hpos), if_pos hw]
  · intro hs i
    unfold applyEdgeDetection
    split
    · exact le_refl _
    · split
      · exact edgeValue_le data w i strength sqrtF hs
          (le_of_lt (not_le.mp (by assumption)))
      · exact le_refl _

/-- C1 witness: a uniform 3×3 buffer, strength 5 and the zero square
root; the interior center pixel is not brightened. -/
theorem applyEdgeDetection_spec_witness :
    (∀ q : ℚ, 0 ≤ (fun _ : ℚ => (0 : ℚ)) q) ∧
      applyEdgeDetection 3 3 (fun _ => 100) 5 (fun _ : ℚ => (0 : ℚ)) 16
        ≤ (fun _ : ℕ => (100 : ℕ)) 16 := by
  have hs : ∀ q : ℚ, 0 ≤ (fun _ : ℚ => (0 : ℚ)) q := fun q => le_refl 0
  exact ⟨hs, (applyEdgeDetection_spec 3 3 (fun _ => 100) 5
    (fun _ : ℚ => (0 : ℚ))).2.2.2 hs 16⟩

/-! ## Run-level lemmas for placeWords -/

/-- A uniform draw in `[0,1)` scaled by the length and floored is a valid
index, so the JS indexing `l[Math.floor(Math.random() * l.length)]` picks
an element of the list. -/
theorem getD_rand_mem {α : Type} (l : List α) (d : α) (r : ℚ)
    (h0 : 0 ≤ r) (h1 : r < 1) (hl : l ≠ []) :
    l.getD (⌊r * l.length⌋).toNat d ∈ l := by
  have hlen : 0 < l.length := List.length_pos.mpr hl
  have hlenq : (0 : ℚ) < (l.length : ℚ) := by exact_mod_cast hlen
  have hlt : ⌊r * (l.length : ℚ)⌋ < (l.length : ℤ) := by
    apply Int.floor_lt.mpr
    push_cast
    calc r * (l.length : ℚ) < 1 * (l.length : ℚ) :=
          mul_lt_mul_of_pos_right h1 hlenq
      _ = (l.length : ℚ) := one_mul _
  have hnn : (0 : ℤ) ≤ ⌊r * (l.length : ℚ)⌋ :=
    Int.floor_nonneg.mpr (mul_nonneg h0 hlenq.le)
  have hidx : (⌊r * (l.length : ℚ)⌋).toNat < l.length := by omega
  rw [List.getD_eq_getElem l d hidx]
  exact List.getElem_mem hidx

/-- In a giant tier with a non-empty hero list, the picked word is a hero
word. -/
theorem pickWord_hero (o : Options) (rand : ℕ → ℚ) (k : ℕ)
    (h0 : 0 ≤ rand k) (h1 : rand k < 1) (hh : o.heroWords ≠ []) :
    pickWord o true rand k ∈ o.heroWords := by
  unfold pickWord
  rw [if_pos]
  · exact getD_rand_mem _ _ _ h0 h1 hh
  · simp [List.isEmpty_iff, hh]

/-- `markGrid` leaves a cell alone or sets it to 1, and only ever writes
cells with flat index below `width * height`. -/
theorem markGrid_pointwise (grid : Grid) (cx cy boxW boxH : ℚ)
    (width height : ℕ) (padding : ℤ) (i : ℕ) :
    markGrid grid cx cy boxW boxH width height padding i = grid i ∨
      (markGrid grid cx cy boxW boxH width height padding i = 1 ∧
        i < width * height) := by
  simp only [markGrid]
  split
  case isTrue hc => exact Or.inr ⟨rfl, hc.2.1⟩
  case isFalse => exact Or.inl rfl

/-- Every commit of one tier's attempt loop carries that tier's scale,
respects the giant-tier brightness bound and hero-word selection, and its
color and alpha follow the color mode. -/
theorem attemptsLoop_commits (o : Options) (data : Buffer)
    (measure : ℤ → String → ℚ) (rand : ℕ → ℚ) (tier : Tier) (fpx : ℤ)
    (hr : ∀ j : ℕ, 0 ≤ rand j ∧ rand j < 1) :
    ∀ (n k : ℕ) (grid : Grid),
      ∀ c ∈ (attemptsLoop o data measure rand tier fpx n k grid).2.2,
        c.tierScale = tier.scale ∧
        (isGiantTier tier = true →
          (∃ b, (getPixelColor data (c.x : ℚ) (c.y : ℚ) o.width).brightness
              = some b ∧ b ≤ 100) ∧
          (o.heroWords ≠ [] → c.word ∈ o.heroWords)) ∧
        (o.colorMode = ColorMode.single → c.color = hexToRgb o.color) ∧
        (o.colorMode = ColorMode.source →
          c.color = ⟨(getPixelColor data (c.x : ℚ) (c.y : ℚ) o.width).r,
            (getPixelColor data (c.x : ℚ) (c.y : ℚ) o.width).g,
            (getPixelColor data (c.x : ℚ) (c.y : ℚ) o.width).b⟩ ∧
          c.alpha = some 1) ∧
        (o.colorMode ≠ ColorMode.source →
          ∃ b, (getPixelColor data (c.x : ℚ) (c.y : ℚ) o.width).brightness
              = some b ∧ c.alpha = some (1 - b / 255)) := by
  intro n
  induction n with
  | zero =>
    intro k grid c hc
    simp only [attemptsLoop, List.not_mem_nil] at hc
  | succ n ih =>
    intro k grid c hc
    simp only [attemptsLoop] at hc
    split at hc
    case isTrue hm =>
      split at hc
      case isTrue hg => exact ih _ _ c hc
      case isFalse hg =>
        split at hc
        case isTrue hbounds => exact ih _ _ c hc
        case isFalse hbounds =>
          split at hc
          case isTrue hcol => exact ih _ _ c hc
          case isFalse hcol =>
            rw [List.mem_cons] at hc
            rcases hc with rfl | hc
            · refine ⟨rfl, ?_, ?_, ?_, ?_⟩
              · intro hgiant
                obtain ⟨b, hb, hlt⟩ := checkMask_brightness hm
                simp only [Bool.not_eq_true] at hg
                rw [hgiant, Bool.true_and] at hg
                rw [hb] at hg
                simp only [optGT, decide_eq_false_iff_not, not_lt] at hg
                refine ⟨⟨b, hb, hg⟩, ?_⟩
                intro hh
                show pickWord o (isGiantTier tier) rand (k + 2) ∈ o.heroWords
                rw [hgiant]
                exact pickWord_hero o rand (k + 2) (hr (k + 2)).1
                  (hr (k + 2)).2 hh
              · intro hmode
                show (getWordColor o.colorMode _ o.color o.customPalette
                  rand (k + 3)).1 = hexToRgb o.color
                rw [hmode]
                rfl
              · intro hmode
                constructor
                · show (getWordColor o.colorMode _ o.color o.customPalette
                    rand (k + 3)).1 = _
                  rw [hmode]
                  rfl
                · show commitAlpha o.colorMode _ = some 1
                  rw [hmode]
                  rfl
              · intro hmode
                obtain ⟨b, hb, hlt⟩ := checkMask_brightness hm
                refine ⟨b, hb, ?_⟩
                show commitAlpha o.colorMode _ = some (1 - b / 255)
                unfold commitAlpha
                rw [if_neg hmode, hb]
                rfl
            · exact ih _ _ c hc
    case isFalse hm => exact ih _ _ c hc

/-- Every commit of the tier loop: giant-tier properties keyed by the
committed scale, and color-mode properties. -/
theorem tierLoop_commits (o : Options) (data : Buffer)
    (measure : ℤ → String → ℚ) (rand : ℕ → ℚ)
    (hr : ∀ j : ℕ, 0 ≤ rand j ∧ rand j < 1) :
    ∀ (tiers : List Tier) (k : ℕ) (grid : Grid),
      ∀ c ∈ (tierLoop o data measure rand tiers k grid).2.2,
        ((3 : ℚ) ≤ c.tierScale →
          (∃ b, (getPixelColor data (c.x : ℚ) (c.y : ℚ) o.width).brightness
              = some b ∧ b ≤ 100) ∧
          (o.heroWords ≠ [] → c.word ∈ o.heroWords)) ∧
        (o.colorMode = ColorMode.single → c.color = hexToRgb o.color) ∧
        (o.colorMode = ColorMode.source →
          c.color = ⟨(getPixelColor data (c.x : ℚ) (c.y : ℚ) o.width).r,
            (getPixelColor data (c.x : ℚ) (c.y : ℚ) o.width).g,
            (getPixelColor data (c.x : ℚ) (c.y : ℚ) o.width).b⟩ ∧
          c.alpha = some 1) ∧
        (o.colorMode ≠ ColorMode.source →
          ∃ b, (getPixelColor data (c.x : ℚ) (c.y : ℚ) o.width).brightness
              = some b ∧ c.alpha = some (1 - b / 255)) := by
  intro tiers
  induction tiers with
  | nil =>
    intro k grid c hc
    simp only [tierLoop, List.not_mem_nil] at hc
  | cons t rest ih =>
    intro k grid c hc
    simp only [tierLoop] at hc
    rw [List.mem_append] at hc
    rcases hc with hc | hc
    · have h := attemptsLoop_commits o data measure rand t _ hr _ _ _ c hc
      refine ⟨?_, h.2.2⟩
      intro hscale
      apply h.2.1
      rw [h.1] at hscale
      exact decide_eq_true hscale
    · exact ih _ _ c hc

/-! ## C5 -/

/-- C5: a tier is giant exactly when its scale is at least 3; in every
`placeWords` run (with the random draws in `[0,1)` as `Math.random`
guarantees), every commit of a giant tier happens at a sampled point whose
luminance is defined and at most 100, and, when the hero word list is
non-empty, its word is a hero word. -/
theorem placeWords_giant_tier (tiers : List Tier) (o : Options)
    (data : Buffer) (measure : ℤ → String → ℚ) (rand : ℕ → ℚ)
    (hr : ∀ j : ℕ, 0 ≤ rand j ∧ rand j < 1) :
    (∀ t : Tier, isGiantTier t = true ↔ (3 : ℚ) ≤ t.scale) ∧
      (∀ k : ℕ, o.heroWords ≠ [] → pickWord o true rand k ∈ o.heroWords) ∧
      ∀ c ∈ (placeWords tiers o data measure rand).2.2,
        (3 : ℚ) ≤ c.tierScale →
          (∃ b, (getPixelColor data (c.x : ℚ) (c.y : ℚ) o.width).brightness
              = some b ∧ b ≤ 100) ∧
          (o.heroWords ≠ [] → c.word ∈ o.heroWords) := by
  refine ⟨fun t => by simp [isGiantTier],
    fun k hh => pickWord_hero o rand k (hr k).1 (hr k).2 hh, ?_⟩
  intro c hc
  exact (tierLoop_commits o data measure rand hr tiers 0 (fun _ => 0) c hc).1

/-- Concrete options for witnesses: single color mode, 2×2 canvas. -/
def optsSingle : Options :=
  ⟨2, 2, ["Word"], ["Hero"], 10, 120, ColorMode.single, "#102030", []⟩

/-- Constant measure oracle for witnesses. -/
def constMeasure : ℤ → String → ℚ := fun _ _ => 1

/-- Constant random stream for witnesses, inside `[0,1)`. -/
def constRand : ℕ → ℚ := fun _ => 0

/-- C5 witness: the constant-zero stream satisfies the `[0,1)` bound, and
the theorem instantiates on a concrete empty-tier run. -/
theorem placeWords_giant_tier_witness :
    (∀ j : ℕ, 0 ≤ constRand j ∧ constRand j < 1) ∧
      ((∀ t : Tier, isGiantTier t = true ↔ (3 : ℚ) ≤ t.scale) ∧
        (∀ k : ℕ, optsSingle.heroWords ≠ [] →
          pickWord optsSingle true constRand k ∈ optsSingle.heroWords) ∧
        ∀ c ∈ (placeWords [] optsSingle blackBuf2x2 constMeasure
            constRand).2.2,
          (3 : ℚ) ≤ c.tierScale →
            (∃ b, (getPixelColor blackBuf2x2 (c.x : ℚ) (c.y : ℚ)
                optsSingle.width).brightness = some b ∧ b ≤ 100) ∧
            (optsSingle.heroWords ≠ [] → c.word ∈ optsSingle.heroWords)) := by
  have hr : ∀ j : ℕ, 0 ≤ constRand j ∧ constRand j < 1 :=
    fun j => ⟨le_refl 0, by unfold constRand; norm_num⟩
  exact ⟨hr, placeWords_giant_tier [] optsSingle blackBuf2x2 constMeasure
    constRand hr⟩

/-! ## C6 -/

/-- C6: in every `placeWords` run (random draws in `[0,1)`), a commit in
`single` color mode carries the hex-decoded configured color regardless of
the sampled pixel; in `source` mode it carries exactly the sampled pixel
RGB and alpha 1; in every non-`source` mode its alpha is
`1 - luminance/255` for the sampled point's luminance. -/
theorem placeWords_color_modes (tiers : List Tier) (o : Options)
    (data : Buffer) (measure : ℤ → String → ℚ) (rand : ℕ → ℚ)
    (hr : ∀ j : ℕ, 0 ≤ rand j ∧ rand j < 1) :
    ∀ c ∈ (placeWords tiers o data measure rand).2.2,
      (o.colorMode = ColorMode.single → c.color = hexToRgb o.color) ∧
      (o.colorMode = ColorMode.source →
        c.color = ⟨(getPixelColor data (c.x : ℚ) (c.y : ℚ) o.width).r,
          (getPixelColor data (c.x : ℚ) (c.y : ℚ) o.width).g,
          (getPixelColor data (c.x : ℚ) (c.y : ℚ) o.width).b⟩ ∧
        c.alpha = some 1) ∧
      (o.colorMode ≠ ColorMode.source →
        ∃ b, (getPixelColor data (c.x : ℚ) (c.y : ℚ) o.width).brightness
            = some b ∧ c.alpha = some (1 - b / 255)) := by
  intro c hc
  exact (tierLoop_commits o data measure rand hr tiers 0 (fun _ => 0) c hc).2

/-- C6 witness: a concrete single-mode run; every commit (the run is
concrete) carries the hex-decoded configured color. -/
theorem placeWords_color_modes_witness :
    ((∀ j : ℕ, 0 ≤ constRand j ∧ constRand j < 1) ∧
        optsSingle.colorMode = ColorMode.single) ∧
      ∀ c ∈ (placeWords [⟨1, 3⟩] optsSingle blackBuf2x2 constMeasure
          constRand).2.2,
        c.color = hexToRgb optsSingle.color := by
  have hr : ∀ j : ℕ, 0 ≤ constRand j ∧ constRand j < 1 :=
    fun j => ⟨le_refl 0, by unfold constRand; norm_num⟩
  refine ⟨⟨hr, rfl⟩, ?_⟩
  intro c hc
  exact (placeWords_color_modes [⟨1, 3⟩] optsSingle blackBuf2x2 constMeasure
    constRand hr c hc).1 rfl

/-! ## C10 -/

/-- The attempt loop only turns free cells into occupied in-canvas cells:
each final cell equals the starting cell or is 1 at an in-bounds index. -/
theorem attemptsLoop_grid (o : Options) (data : Buffer)
    (measure : ℤ → String → ℚ) (rand : ℕ → ℚ) (tier : Tier) (fpx : ℤ) :
    ∀ (n k : ℕ) (grid : Grid) (i : ℕ),
      (attemptsLoop o data measure rand tier fpx n k grid).1 i = grid i ∨
        ((attemptsLoop o data measure rand tier fpx n k grid).1 i = 1 ∧
          i < o.width * o.height) := by
  intro n
  induction n with
  | zero =>
    intro k grid i
    exact Or.inl rfl
  | succ n ih =>
    intro k grid i
    simp only [attemptsLoop]
    split
    · split
      · exact ih _ _ i
      · split
        · exact ih _ _ i
        · split
          · exact ih _ _ i
          · rcases ih _ _ i with hrec | hrec
            · rw [hrec]
              exact markGrid_pointwise _ _ _ _ _ _ _ _ i
            · exact Or.inr hrec
    · exact ih _ _ i

/-- The tier loop only turns free cells into occupied in-canvas cells. -/
theorem tierLoop_grid (o : Options) (data : Buffer)
    (measure : ℤ → String → ℚ) (rand : ℕ → ℚ) :
    ∀ (tiers : List Tier) (k : ℕ) (grid : Grid) (i : ℕ),
      (tierLoop o data measure rand tiers k grid).1 i = grid i ∨
        ((tierLoop o data measure rand tiers k grid).1 i = 1 ∧
          i < o.width * o.height) := by
  intro tiers
  induction tiers with
  | nil => intro k grid i; exact Or.inl rfl
  | cons t rest ih =>
    intro k grid i
    simp only [tierLoop]
    rcases ih _ _ i with hrec | hrec
    · rw [hrec]
      exact attemptsLoop_grid o data measure rand t _ _ _ _ i
    · exact Or.inr hrec

/-- C10: each `placeWords` run starts from a freshly allocated all-zero
grid; its final grid is {0,1}-valued and zero outside the canvas;
`markGrid` only sets cells to 1 (never clears), never touches a cell
whose flat index is out of bounds, and an occupied cell stays occupied
through the rest of the run. -/
theorem placeWords_grid_invariant (tiers : List Tier) (o : Options)
    (data : Buffer) (measure : ℤ → String → ℚ) (rand : ℕ → ℚ) :
    (placeWords tiers o data measure rand
        = tierLoop o data measure rand tiers 0 fun _ => 0) ∧
      (∀ i, (placeWords tiers o data measure rand).1 i = 0 ∨
        (placeWords tiers o data measure rand).1 i = 1) ∧
      (∀ i, o.width * o.height ≤ i →
        (placeWords tiers o data measure rand).1 i = 0) ∧
      (∀ (grid : Grid) (cx cy boxW boxH : ℚ) (width height : ℕ)
          (padding : ℤ) (i : ℕ),
        (markGrid grid cx cy boxW boxH width height padding i = grid i ∨
          markGrid grid cx cy boxW boxH width height padding i = 1) ∧
        (grid i = 1 →
          markGrid grid cx cy boxW boxH width height padding i = 1) ∧
        (width * height ≤ i →
          markGrid grid cx cy boxW boxH width height padding i = grid i)) ∧
      (∀ (tiers2 : List Tier) (k : ℕ) (grid : Grid) (i : ℕ), grid i = 1 →
        (tierLoop o data measure rand tiers2 k grid).1 i = 1) := by
  refine ⟨rfl, ?_, ?_, ?_, ?_⟩
  · intro i
    rcases tierLoop_grid o data measure rand tiers 0 (fun _ => 0) i
      with h | h
    · exact Or.inl h
    · exact Or.inr h.1
  · intro i hle
    rcases tierLoop_grid o data measure rand tiers 0 (fun _ => 0) i
      with h | h
    · exact h
    · omega
  · intro grid cx cy boxW boxH width height padding i
    rcases markGrid_pointwise grid cx cy boxW boxH width height padding i
      with h | h
    · exact ⟨Or.inl h, fun h1 => h.trans h1, fun _ => h⟩
    · refine ⟨Or.inr h.1, fun _ => h.1, fun hle => absurd h.2 (by omega)⟩
  · intro tiers2 k grid i h1
    rcases tierLoop_grid o data measure rand tiers2 k grid i with h | h
    · exact h.trans h1
    · exact h.1

/-- The all-occupied grid, for the C10 witness. -/
def oneGrid : Grid := fun _ => 1

/-- C10 witness: on a concrete run, an occupied cell of a concrete grid
stays occupied under `markGrid` and under a further tier loop. -/
theorem placeWords_grid_invariant_witness :
    (oneGrid 5 = 1) ∧
      markGrid oneGrid 3 3 2 2 8 8 2 5 = 1 ∧
      (tierLoop optsSingle blackBuf2x2 constMeasure constRand [] 0
        oneGrid).1 5 = 1 := by
  have T := placeWords_grid_invariant [] optsSingle blackBuf2x2 constMeasure
    constRand
  exact ⟨rfl, (T.2.2.2.1 oneGrid 3 3 2 2 8 8 2 5).2.1 rfl,
    T.2.2.2.2 [] 0 oneGrid 5 rfl⟩

end WordCloud
